import Mathlib

/-!
Shallow embedding of the HDFC statement analyser (src/Home.py) and proofs of
the specification claims.

Conventions of the embedding:
* Python strings are Lean String; the string operations the source uses
  (split on a single character, startswith, substring containment, strip,
  join) are modelled character-list-wise below, mirroring CPython semantics.
* Amounts are rationals (the source uses pandas float columns; every claim
  is exact arithmetic on statement amounts).
* A parsed Date cell is an Option Int: some n is the day number of a cell
  that pandas to_datetime parses with format dd/mm/yy, none is NaT
  (errors equal coerce).  Only ordering and differences of dates matter to
  the claims, so the dd/mm/yy to day-number conversion itself is left
  abstract and the cell is modelled post-parse.
* A Python expression that may raise IndexError is modelled in
  Except String; Except.error models the raise.
-/

/-- CPython semantics of s.split(c) for a one-character separator, on the
character list: splitting never yields an empty list, and splitting a string
without the separator yields the one-element list containing it. -/
def splitCh (c : Char) : List Char → List (List Char)
  | [] => [[]]
  | x :: xs =>
    if x = c then [] :: splitCh c xs
    else
      match splitCh c xs with
      | [] => [[x]]
      | y :: ys => (x :: y) :: ys

/-- Python s.split(c) for a single-character separator c. -/
def pySplit (s : String) (c : Char) : List String :=
  (splitCh c s.data).map (fun l => String.mk l)

/-- Python s.startswith(p). -/
def pyStartsWith (s p : String) : Bool :=
  p.data.isPrefixOf s.data

/-- One step of Python substring containment: the needle occurs at some
suffix of the haystack. -/
def containsAux (needle : List Char) : List Char → Bool
  | [] => needle.isEmpty
  | c :: rest => needle.isPrefixOf (c :: rest) || containsAux needle rest

/-- Python substring test, the expression sub in s. -/
def pyContains (s sub : String) : Bool :=
  containsAux sub.data s.data

/-- Drop leading whitespace characters. -/
def dropWsLeft : List Char → List Char
  | [] => []
  | c :: rest => if c.isWhitespace then dropWsLeft rest else c :: rest

/-- Python s.strip, whitespace removed from both ends. -/
def pyStrip (s : String) : String :=
  String.mk (List.reverse (dropWsLeft (List.reverse (dropWsLeft s.data))))

/-- Python l[i] with negative-index wraparound; none models an IndexError. -/
def pyGet {α : Type} (l : List α) (i : ℤ) : Option α :=
  if 0 ≤ i then l.get? i.toNat
  else if (-i).toNat ≤ l.length then l.get? (l.length - (-i).toNat)
  else none

/-- Python l[i] in the Except monad: an out-of-range index raises. -/
def pyGetE (l : List String) (i : ℤ) : Except String String :=
  match pyGet l i with
  | some v => Except.ok v
  | none => Except.error "IndexError"

/-- extract_upi_name of src/Home.py lines 67-89, instrumented for the
IndexError that an unguarded field access would raise.  The inner
Option String is the Python return value, none modelling np.nan. -/
def extract_upi_name (upi_string : String) : Except String (Option String) :=
  if pyStartsWith upi_string "UPI-" then
    if pyContains upi_string "-" then
      Except.map some (pyGetE (pySplit upi_string '-') 1)
    else Except.ok none
  else if pyStartsWith upi_string "POS" then
    if (pySplit upi_string ' ').length > 2 then
      Except.map some (pyGetE (pySplit upi_string ' ') 2)
    else Except.ok none
  else if pyContains upi_string "RTGS" || pyContains upi_string "NEFT" then
    if (pySplit upi_string '-').length > 2 then
      Except.map some (pyGetE (pySplit upi_string '-') 2)
    else Except.ok none
  else if pyStartsWith upi_string "CASH DEPOSIT BY" then
    if (pySplit upi_string '-').length > 1 then
      Except.map (fun v => some (pyStrip v)) (pyGetE (pySplit upi_string '-') 1)
    else Except.ok none
  else Except.ok none

/-- extract_upi_description of src/Home.py lines 92-112, instrumented the
same way as extract_upi_name. -/
def extract_upi_description (upi_string : String) : Except String (Option String) :=
  if pyStartsWith upi_string "POS" then
    if (pySplit upi_string ' ').length > 2 then
      Except.ok (some (String.intercalate " " ((pySplit upi_string ' ').drop 2)))
    else Except.ok none
  else if pyContains upi_string "RTGS" || pyContains upi_string "NEFT" then
    if (pySplit upi_string '-').length > 2 then
      Except.map some (pyGetE (pySplit upi_string '-') (-2))
    else Except.map some (pyGetE (pySplit upi_string '-') (-1))
  else if pyStartsWith upi_string "CASH DEPOSIT BY" then
    if (pySplit upi_string '-').length > 2 then
      Except.map (fun v => some (pyStrip v)) (pyGetE (pySplit upi_string '-') (-1))
    else Except.ok none
  else Except.map some (pyGetE (pySplit upi_string '-') (-1))

deriving instance DecidableEq for Except


/-- A raw amount or balance cell after load_data's fillna.  A cell that
pd.to_numeric cannot parse becomes NaN and is then filled with 0, so only
the parsed value or the fact of being non-numeric matters. -/
inductive Cell where
  | num (q : ℚ)
  | nonNumeric
deriving DecidableEq

/-- pd.to_numeric with errors equal coerce, followed by fillna 0
(src/Home.py lines 134-136). -/
def toNumeric (c : Cell) : ℚ :=
  match c with
  | Cell.num q => q
  | Cell.nonNumeric => 0

/-- One row of the table produced by load_data, with the five renamed
columns.  The Date cell is modelled post-parse, see the header comment. -/
structure RawRow where
  narration : String
  date : Option ℤ
  withdrawal : Cell
  deposited : Cell
  balance : Cell
deriving DecidableEq

/-- One row of the preprocessed DataFrame.  Date_Formated (a strftime
rendering of Date, display only) is not modelled. -/
structure Transaction where
  date : Option ℤ
  narration : String
  withdrawal : ℚ
  deposited : ℚ
  balance : ℚ
  upis : String
  upiName : Option String
  upiBank : Option String
  upiDescription : Option String
  cumulativeWithdrawal : ℚ
  cumulativeDeposited : ℚ
deriving DecidableEq

/-- The text strictly before the first dash, or none if no dash follows. -/
def takeBeforeDash : List Char → Option (List Char)
  | [] => none
  | x :: xs => if x = '-' then some [] else (takeBeforeDash xs).map (fun l => x :: l)

/-- Leftmost match of the regex in str.extract: group text between an at
sign and the next dash (src/Home.py line 144); none when no match. -/
def upiBankAux : List Char → Option (List Char)
  | [] => none
  | x :: xs =>
    if x = '@' then
      match takeBeforeDash xs with
      | some g => some g
      | none => upiBankAux xs
    else upiBankAux xs

/-- The UPI_Bank column of src/Home.py line 144. -/
def extractUpiBank (s : String) : Option String :=
  (upiBankAux s.data).map (fun l => String.mk l)

/-- The per-row part of preprocess_data (src/Home.py lines 130-145): date
and amount coercion, the UPIs projection (narration before the first at
sign), and the two classifier columns.  UPI_Name is computed from the UPIs
projection, UPI_Description from the full narration, exactly as in the
source.  The cumulative columns are filled in by buildLedger. -/
def coerceRow (r : RawRow) : Transaction :=
  { date := r.date
    narration := r.narration
    withdrawal := toNumeric r.withdrawal
    deposited := toNumeric r.deposited
    balance := toNumeric r.balance
    upis := (pySplit r.narration '@').headD ""
    upiName := (Except.toOption (extract_upi_name ((pySplit r.narration '@').headD ""))).getD none
    upiBank := extractUpiBank r.narration
    upiDescription := (Except.toOption (extract_upi_description r.narration)).getD none
    cumulativeWithdrawal := 0
    cumulativeDeposited := 0 }

/-- The ledger with the two running-sum columns (src/Home.py lines 151-152):
a left-to-right cumsum over Withdrawal and Deposited, seeded by the
accumulators.  preprocess_data seeds both at zero. -/
def buildLedger (accW accD : ℚ) : List RawRow → List Transaction
  | [] => []
  | r :: rs =>
    { coerceRow r with
        cumulativeWithdrawal := accW + (coerceRow r).withdrawal
        cumulativeDeposited := accD + (coerceRow r).deposited }
      :: buildLedger (accW + (coerceRow r).withdrawal) (accD + (coerceRow r).deposited) rs

/-- preprocess_data of src/Home.py lines 115-154 on the row list.  The
1-based index reset (line 148) is positional display information and is
represented by list position. -/
def preprocess_data (rows : List RawRow) : List Transaction :=
  buildLedger 0 0 rows

/-- Number of days of the statement period (src/Home.py lines 164-166):
last row date minus first row date.  none when the ledger is empty or
either boundary date is NaT. -/
def statementDays (l : List Transaction) : Option ℤ :=
  match l.head?, l.getLast? with
  | some f, some la =>
    match f.date, la.date with
    | some s, some e => some (e - s)
    | _, _ => none
  | _, _ => none

/-- Total of the Withdrawal column (src/Home.py line 171). -/
def total_withdrawal (l : List Transaction) : ℚ :=
  (l.map Transaction.withdrawal).sum

/-- Total of the Deposited column (src/Home.py line 172). -/
def total_deposit (l : List Transaction) : ℚ :=
  (l.map Transaction.deposited).sum

/-- The displayed average withdrawal per day (src/Home.py lines 178-179):
the display is guarded by days greater than zero, so none models both a
zero-or-negative span and an unavailable span. -/
def avgWithdrawalPerDay (l : List Transaction) : Option ℚ :=
  match statementDays l with
  | some d => if 0 < d then some (total_withdrawal l / (d : ℚ)) else none
  | none => none

/-- The displayed average withdrawal per 30-day month (src/Home.py line
180), same guard as avgWithdrawalPerDay. -/
def avgWithdrawalPerMonth (l : List Transaction) : Option ℚ :=
  match statementDays l with
  | some d => if 0 < d then some (total_withdrawal l / ((d : ℚ) / 30)) else none
  | none => none

/-- The date-range mask of src/Home.py line 273: a row passes when its date
is parsed and lies in the inclusive range.  A NaT date compares False. -/
def inRange (d1 d2 : ℤ) (t : Transaction) : Bool :=
  match t.date with
  | some d => decide (d1 ≤ d) && decide (d ≤ d2)
  | none => false

/-- Filter by inclusive date range (src/Home.py lines 272-274). -/
def filterByRange (l : List Transaction) (d1 d2 : ℤ) : List Transaction :=
  l.filter (inRange d1 d2)

/-- The per-key withdrawal sum of groupby on the UPIs column
(src/Home.py line 300). -/
def groupWithdrawal (l : List Transaction) (k : String) : ℚ :=
  ((l.filter (fun t => t.upis == k)).map Transaction.withdrawal).sum

/-- The UPIs groupby result (src/Home.py line 300): one entry per distinct
UPIs key with its summed withdrawal.  The source then sorts the entries by
sum, descending; the claims only concern the multiset of entries, so the
keys are enumerated by dedup instead. -/
def upi_group (l : List Transaction) : List (String × ℚ) :=
  ((l.map Transaction.upis).dedup).map (fun k => (k, groupWithdrawal l k))

/-- First row attaining the running maximum withdrawal, the semantics of
idxmax: a later row replaces the current best only when strictly larger. -/
def idxmaxFrom (best : Transaction) : List Transaction → Transaction
  | [] => best
  | u :: us => if best.withdrawal < u.withdrawal then idxmaxFrom u us else idxmaxFrom best us

/-- The highest-single-transaction query of src/Home.py lines 303-306: the
row at Withdrawal idxmax, displayed only when the frame is non-empty and
the maximum withdrawal is positive; none models the skipped display. -/
def maxSingleWithdrawal (l : List Transaction) : Option Transaction :=
  match l with
  | [] => none
  | t :: ts =>
    if 0 < (ts.map Transaction.withdrawal).foldl max t.withdrawal
    then some (idxmaxFrom t ts) else none

/-- Modelled from the spec, section 4.3: the five classification rules for
the counterparty name, first match wins, evaluated as prefix or substring
tests on the given string.  Used only to compare the specified rule list
with the implemented one. -/
def specCounterpartyName (s : String) : Option String :=
  if pyStartsWith s "UPI-" then (pySplit s '-').get? 1
  else if pyStartsWith s "POS" then (pySplit s ' ').get? 2
  else if pyContains s "RTGS" || pyContains s "NEFT" then (pySplit s '-').get? 2
  else if pyStartsWith s "CASH DEPOSIT BY" then ((pySplit s '-').get? 1).map pyStrip
  else none



/-- Sample rows used as concrete inputs by witness theorems. -/
def rowsA : List RawRow :=
  [ { narration := "a", date := some 10, withdrawal := Cell.num 5,
      deposited := Cell.num 1, balance := Cell.num 100 },
    { narration := "b", date := some 11, withdrawal := Cell.num 2,
      deposited := Cell.num 3, balance := Cell.num 95 } ]

/-- The first ledger row built from rowsA.  The cumulative fields are
written as the unreduced running sums the builder produces. -/
def txA0 : Transaction :=
  { date := some 10, narration := "a", withdrawal := 5, deposited := 1,
    balance := 100, upis := "a", upiName := none, upiBank := none,
    upiDescription := some "a", cumulativeWithdrawal := 0 + 5,
    cumulativeDeposited := 0 + 1 }

/-- The second ledger row built from rowsA. -/
def txA1 : Transaction :=
  { date := some 11, narration := "b", withdrawal := 2, deposited := 3,
    balance := 95, upis := "b", upiName := none, upiBank := none,
    upiDescription := some "b", cumulativeWithdrawal := 0 + 5 + 2,
    cumulativeDeposited := 0 + 1 + 3 }

/-- Two rows on the same calendar day. -/
def rowsSameDay : List RawRow :=
  [ { narration := "a", date := some 7, withdrawal := Cell.num 4,
      deposited := Cell.num 0, balance := Cell.num 50 },
    { narration := "b", date := some 7, withdrawal := Cell.num 6,
      deposited := Cell.num 0, balance := Cell.num 44 } ]

/-- A single row, a one-transaction statement. -/
def rowsOne : List RawRow :=
  [ { narration := "c", date := some 7, withdrawal := Cell.num 4,
      deposited := Cell.num 0, balance := Cell.num 9 } ]

/-- Two rows whose dates are out of chronological order. -/
def rowsUnsorted : List RawRow :=
  [ { narration := "a", date := some 5, withdrawal := Cell.num 1,
      deposited := Cell.num 0, balance := Cell.num 9 },
    { narration := "b", date := some 3, withdrawal := Cell.num 1,
      deposited := Cell.num 0, balance := Cell.num 8 } ]

/-- The first ledger row built from rowsUnsorted. -/
def txU0 : Transaction :=
  { date := some 5, narration := "a", withdrawal := 1, deposited := 0,
    balance := 9, upis := "a", upiName := none, upiBank := none,
    upiDescription := some "a", cumulativeWithdrawal := 0 + 1,
    cumulativeDeposited := 0 + 0 }

/-- The second ledger row built from rowsUnsorted. -/
def txU1 : Transaction :=
  { date := some 3, narration := "b", withdrawal := 1, deposited := 0,
    balance := 8, upis := "b", upiName := none, upiBank := none,
    upiDescription := some "b", cumulativeWithdrawal := 0 + 1 + 1,
    cumulativeDeposited := 0 + 0 + 0 }

/-- Two rows whose withdrawals are all zero. -/
def rowsZeroW : List RawRow :=
  [ { narration := "a", date := some 1, withdrawal := Cell.num 0,
      deposited := Cell.num 5, balance := Cell.num 10 },
    { narration := "b", date := some 2, withdrawal := Cell.num 0,
      deposited := Cell.num 2, balance := Cell.num 12 } ]

/-- A UPI narration in which the first at sign falls inside a dash field,
so truncating at the at sign changes the second dash field. -/
def rowAtCut : RawRow :=
  { narration := "UPI-A@B-C", date := some 1, withdrawal := Cell.num 1,
    deposited := Cell.num 0, balance := Cell.num 5 }

/-- A UPI narration containing neither RTGS nor NEFT. -/
def rowUpiPlain : RawRow :=
  { narration := "UPI-JOHN DOE-jd@okhdfc-12345-Payment for food",
    date := some 2, withdrawal := Cell.num 3, deposited := Cell.num 0,
    balance := Cell.num 2 }

example : pySplit "UPI-A@B-C" '@' = ["UPI-A", "B-C"] := by decide
example : extract_upi_name "UPI-JOHN DOE-johndoe@bank" = Except.ok (some "JOHN DOE") := by decide
example : extract_upi_name "POS 1234 AMAZON RETAIL" = Except.ok (some "AMAZON") := by decide
example : extract_upi_description "POS 1234 AMAZON RETAIL" = Except.ok (some "AMAZON RETAIL") := by decide
example : extract_upi_name "NEFT-HDFC0001-ACME CORP-INV2024-REF" = Except.ok (some "ACME CORP") := by decide
example : extract_upi_description "NEFT-HDFC0001-ACME CORP-INV2024-REF" = Except.ok (some "INV2024") := by decide
example : extract_upi_name "CASH DEPOSIT BY - RAHUL KUMAR - BRANCH123" = Except.ok (some "RAHUL KUMAR") := by decide
example : extract_upi_description "CASH DEPOSIT BY - RAHUL KUMAR - BRANCH123" = Except.ok (some "BRANCH123") := by decide
example : extract_upi_name "plain text" = Except.ok none := by decide
example : extract_upi_description "plain text" = Except.ok (some "plain text") := by decide
example : specCounterpartyName "UPI-JOHN DOE-johndoe@bank-1234-Payment" = some "JOHN DOE" := by decide
example : specCounterpartyName "UPI-A@B-C" = some "A@B" := by decide

lemma splitCh_ne_nil (c : Char) : ∀ l : List Char, splitCh c l ≠ []
  | [] => by simp [splitCh]
  | x :: xs => by
    simp only [splitCh]
    split
    · simp
    · split <;> simp

lemma pySplit_ne_nil (s : String) (c : Char) : pySplit s c ≠ [] := by
  simp only [pySplit, ne_eq, List.map_eq_nil_iff]
  exact splitCh_ne_nil c s.data

lemma one_lt_length_splitCh (c : Char) (l : List Char) (h : c ∈ l) :
    1 < (splitCh c l).length := by
  induction l with
  | nil => cases h
  | cons x xs ih =>
    simp only [splitCh]
    by_cases hx : x = c
    · rw [if_pos hx]
      have h0 : 0 < (splitCh c xs).length :=
        List.length_pos.mpr (splitCh_ne_nil c xs)
      simp only [List.length_cons]
      omega
    · rw [if_neg hx]
      have hmem : c ∈ xs := by
        rcases List.mem_cons.mp h with h' | h'
        · exact absurd h'.symm hx
        · exact h'
      have h1 := ih hmem
      cases hs : splitCh c xs with
      | nil => exact absurd hs (splitCh_ne_nil c xs)
      | cons y ys =>
        rw [hs] at h1
        simpa using h1

lemma containsAux_single_iff (c : Char) (l : List Char) :
    containsAux [c] l = true ↔ c ∈ l := by
  induction l with
  | nil => simp [containsAux, List.isEmpty]
  | cons x xs ih =>
    simp only [containsAux, List.isPrefixOf, Bool.or_eq_true, Bool.and_eq_true,
      beq_iff_eq, ih, List.mem_cons]
    constructor
    · rintro (⟨h, -⟩ | h)
      · exact Or.inl h
      · exact Or.inr h
    · rintro (h | h)
      · exact Or.inl ⟨h, by simp [List.isPrefixOf]⟩
      · exact Or.inr h

lemma pyContains_dash_iff (s : String) : pyContains s "-" = true ↔ '-' ∈ s.data := by
  have hd : ("-" : String).data = ['-'] := rfl
  rw [pyContains, hd, containsAux_single_iff]

lemma pyStartsWith_iff (s p : String) : pyStartsWith s p = true ↔ p.data <+: s.data := by
  rw [pyStartsWith, List.isPrefixOf_iff_prefix]

lemma dash_mem_of_upi (s : String) (h : pyStartsWith s "UPI-" = true) : '-' ∈ s.data := by
  obtain ⟨t, ht⟩ := (pyStartsWith_iff s "UPI-").mp h
  have hd : ("UPI-" : String).data = ['U', 'P', 'I', '-'] := rfl
  rw [hd] at ht
  rw [← ht]
  simp

lemma upi_not_pos (s : String) (h : pyStartsWith s "UPI-" = true) :
    pyStartsWith s "POS" = false := by
  rcases hb : pyStartsWith s "POS" with _ | _
  · rfl
  · obtain ⟨t, ht⟩ := (pyStartsWith_iff s "UPI-").mp h
    obtain ⟨u, hu⟩ := (pyStartsWith_iff s "POS").mp hb
    have hd1 : ("UPI-" : String).data = ['U', 'P', 'I', '-'] := rfl
    have hd2 : ("POS" : String).data = ['P', 'O', 'S'] := rfl
    rw [hd1] at ht
    rw [hd2] at hu
    rw [← ht] at hu
    simp at hu

lemma upi_not_cash (s : String) (h : pyStartsWith s "UPI-" = true) :
    pyStartsWith s "CASH DEPOSIT BY" = false := by
  rcases hb : pyStartsWith s "CASH DEPOSIT BY" with _ | _
  · rfl
  · obtain ⟨t, ht⟩ := (pyStartsWith_iff s "UPI-").mp h
    obtain ⟨u, hu⟩ := (pyStartsWith_iff s "CASH DEPOSIT BY").mp hb
    have hd1 : ("UPI-" : String).data = ['U', 'P', 'I', '-'] := rfl
    have hd2 : ("CASH DEPOSIT BY" : String).data =
        ['C', 'A', 'S', 'H', ' ', 'D', 'E', 'P', 'O', 'S', 'I', 'T', ' ', 'B', 'Y'] := rfl
    rw [hd1] at ht
    rw [hd2] at hu
    rw [← ht] at hu
    simp at hu

lemma pyGetE_one (l : List String) (v : String)
    (h : l.get? 1 = some v) : pyGetE l 1 = Except.ok v := by
  have h1 : pyGet l 1 = l.get? 1 := by
    simp [pyGet]
  rw [pyGetE, h1, h]

lemma pyGetE_two (l : List String) (v : String)
    (h : l.get? 2 = some v) : pyGetE l 2 = Except.ok v := by
  have h1 : pyGet l 2 = l.get? 2 := by
    simp [pyGet]
  rw [pyGetE, h1, h]

lemma pyGet_neg_one (l : List String) (h : l ≠ []) :
    pyGet l (-1) = l.get? (l.length - 1) := by
  have hl : 1 ≤ l.length := List.length_pos.mpr h
  have h0 : ¬ (0 : ℤ) ≤ -1 := by decide
  have h1 : ((-(-1 : ℤ)).toNat) = 1 := by decide
  rw [pyGet, if_neg h0, h1, if_pos hl]

lemma pyGetE_neg_one (l : List String) (h : l ≠ []) :
    pyGetE l (-1) = Except.ok (l.getLastD "") := by
  have hlast : l.getLast? = l.get? (l.length - 1) := by
    rw [List.getLast?_eq_getElem?, ← List.get?_eq_getElem?]
  obtain ⟨v, hv⟩ := List.getLast?_isSome.mpr h |> Option.isSome_iff_exists.mp
  rw [pyGetE, pyGet_neg_one l h, ← hlast, hv]
  have : l.getLastD "" = v := by
    rw [List.getLastD_eq_getLast?, hv]
    rfl
  rw [this]

lemma pyGetE_neg_two_ok (l : List String) (h : 2 ≤ l.length) :
    ∃ v, pyGetE l (-2) = Except.ok v := by
  have h0 : ¬ (0 : ℤ) ≤ -2 := by decide
  have h1 : ((-(-2 : ℤ)).toNat) = 2 := by decide
  have hlt : l.length - 2 < l.length := by omega
  obtain ⟨v, hv⟩ : ∃ v, l.get? (l.length - 2) = some v := by
    have := List.get?_eq_get hlt
    exact ⟨_, this⟩
  refine ⟨v, ?_⟩
  rw [pyGetE, pyGet, if_neg h0, h1, if_pos h, hv]

/-- The implemented counterparty extraction agrees, on every input string,
with the five classification rules as the specification words them, and in
particular never raises. -/
lemma extract_upi_name_eq_spec (s : String) :
    extract_upi_name s = Except.ok (specCounterpartyName s) := by
  rw [extract_upi_name, specCounterpartyName]
  by_cases h1 : pyStartsWith s "UPI-" = true
  · have hc : pyContains s "-" = true :=
      (pyContains_dash_iff s).mpr (dash_mem_of_upi s h1)
    have hlen : 1 < (pySplit s '-').length := by
      have := one_lt_length_splitCh '-' s.data (dash_mem_of_upi s h1)
      simpa [pySplit] using this
    obtain ⟨v, hv⟩ : ∃ v, (pySplit s '-').get? 1 = some v :=
      ⟨_, List.get?_eq_get hlen⟩
    rw [if_pos h1, if_pos hc, if_pos h1]
    rw [pyGetE_one _ v hv, hv]
    rfl
  · rw [if_neg h1, if_neg h1]
    by_cases h2 : pyStartsWith s "POS" = true
    · rw [if_pos h2, if_pos h2]
      by_cases hlen : (pySplit s ' ').length > 2
      · obtain ⟨v, hv⟩ : ∃ v, (pySplit s ' ').get? 2 = some v :=
          ⟨_, List.get?_eq_get hlen⟩
        rw [if_pos hlen, pyGetE_two _ v hv, hv]
        rfl
      · have hnone : (pySplit s ' ').get? 2 = none :=
          List.get?_eq_none.mpr (by omega)
        rw [if_neg hlen, hnone]
    · rw [if_neg h2, if_neg h2]
      by_cases h3 : (pyContains s "RTGS" || pyContains s "NEFT") = true
      · rw [if_pos h3, if_pos h3]
        by_cases hlen : (pySplit s '-').length > 2
        · obtain ⟨v, hv⟩ : ∃ v, (pySplit s '-').get? 2 = some v :=
            ⟨_, List.get?_eq_get hlen⟩
          rw [if_pos hlen, pyGetE_two _ v hv, hv]
          rfl
        · have hnone : (pySplit s '-').get? 2 = none :=
            List.get?_eq_none.mpr (by omega)
          rw [if_neg hlen, hnone]
      · rw [if_neg h3, if_neg h3]
        by_cases h4 : pyStartsWith s "CASH DEPOSIT BY" = true
        · rw [if_pos h4, if_pos h4]
          by_cases hlen : (pySplit s '-').length > 1
          · obtain ⟨v, hv⟩ : ∃ v, (pySplit s '-').get? 1 = some v :=
              ⟨_, List.get?_eq_get hlen⟩
            rw [if_pos hlen, pyGetE_one _ v hv, hv]
            rfl
          · have hnone : (pySplit s '-').get? 1 = none :=
              List.get?_eq_none.mpr (by omega)
            rw [if_neg hlen, hnone]
            rfl
        · rw [if_neg h4, if_neg h4]

/-- extract_upi_description never raises: every field access in it is
guarded or hits a list that split guarantees non-empty. -/
lemma extract_upi_description_ok (s : String) :
    ∃ v, extract_upi_description s = Except.ok v := by
  rw [extract_upi_description]
  by_cases h1 : pyStartsWith s "POS" = true
  · rw [if_pos h1]
    by_cases hlen : (pySplit s ' ').length > 2
    · rw [if_pos hlen]
      exact ⟨_, rfl⟩
    · rw [if_neg hlen]
      exact ⟨_, rfl⟩
  · rw [if_neg h1]
    by_cases h2 : (pyContains s "RTGS" || pyContains s "NEFT") = true
    · rw [if_pos h2]
      by_cases hlen : (pySplit s '-').length > 2
      · obtain ⟨v, hv⟩ := pyGetE_neg_two_ok (pySplit s '-') (by omega)
        rw [if_pos hlen, hv]
        exact ⟨_, rfl⟩
      · rw [if_neg hlen, pyGetE_neg_one _ (pySplit_ne_nil s '-')]
        exact ⟨_, rfl⟩
    · rw [if_neg h2]
      by_cases h3 : pyStartsWith s "CASH DEPOSIT BY" = true
      · rw [if_pos h3]
        by_cases hlen : (pySplit s '-').length > 2
        · rw [if_pos hlen, pyGetE_neg_one _ (pySplit_ne_nil s '-')]
          exact ⟨_, rfl⟩
        · rw [if_neg hlen]
          exact ⟨_, rfl⟩
      · rw [if_neg h3, pyGetE_neg_one _ (pySplit_ne_nil s '-')]
        exact ⟨_, rfl⟩

lemma buildLedger_head (rs : List RawRow) (a b : ℚ) (t : Transaction)
    (h : (buildLedger a b rs).get? 0 = some t) :
    t.cumulativeWithdrawal = a + t.withdrawal ∧
    t.cumulativeDeposited = b + t.deposited := by
  cases rs with
  | nil => simp [buildLedger] at h
  | cons r rs =>
    simp only [buildLedger, List.get?_cons_zero, Option.some.injEq] at h
    subst h
    exact ⟨rfl, rfl⟩

lemma buildLedger_step (rows : List RawRow) :
    ∀ (a b : ℚ) (i : ℕ) (t' t : Transaction),
    (buildLedger a b rows).get? i = some t' →
    (buildLedger a b rows).get? (i + 1) = some t →
    t.cumulativeWithdrawal = t'.cumulativeWithdrawal + t.withdrawal ∧
    t.cumulativeDeposited = t'.cumulativeDeposited + t.deposited := by
  induction rows with
  | nil =>
    intro a b i t' t h' h
    simp [buildLedger] at h'
  | cons r rs ih =>
    intro a b i t' t h' h
    cases i with
    | zero =>
      simp only [buildLedger, List.get?_cons_zero, Option.some.injEq] at h'
      simp only [buildLedger, List.get?_cons_succ] at h
      have hh := buildLedger_head rs _ _ t h
      subst h'
      exact hh
    | succ n =>
      simp only [buildLedger, List.get?_cons_succ] at h' h
      exact ih _ _ n t' t h' h

lemma buildLedger_length (rows : List RawRow) :
    ∀ a b : ℚ, (buildLedger a b rows).length = rows.length := by
  induction rows with
  | nil => intro a b; rfl
  | cons r rs ih =>
    intro a b
    simp [buildLedger, ih]

lemma buildLedger_proj (rows : List RawRow) :
    ∀ (a b : ℚ) (i : ℕ),
    ((buildLedger a b rows).get? i).map
        (fun t => (t.narration, t.date, t.withdrawal, t.deposited, t.balance))
      = (rows.get? i).map
        (fun r => (r.narration, r.date, toNumeric r.withdrawal,
          toNumeric r.deposited, toNumeric r.balance)) := by
  induction rows with
  | nil => intro a b i; simp [buildLedger]
  | cons r rs ih =>
    intro a b i
    cases i with
    | zero => simp [buildLedger, coerceRow]
    | succ n =>
      simp only [buildLedger, List.get?_cons_succ]
      exact ih _ _ n

lemma buildLedger_mem (rows : List RawRow) :
    ∀ (a b : ℚ) (t : Transaction), t ∈ buildLedger a b rows →
    ∃ r ∈ rows, t.withdrawal = toNumeric r.withdrawal ∧
      t.deposited = toNumeric r.deposited := by
  induction rows with
  | nil =>
    intro a b t h
    simp [buildLedger] at h
  | cons r rs ih =>
    intro a b t h
    rw [buildLedger] at h
    rcases List.mem_cons.mp h with h | h
    · refine ⟨r, List.mem_cons_self r rs, ?_⟩
      subst h
      exact ⟨rfl, rfl⟩
    · obtain ⟨r', hr', hw⟩ := ih _ _ t h
      exact ⟨r', List.mem_cons_of_mem _ hr', hw⟩

/-- C1: in every ledger built by the pipeline, the first row's cumulative
withdrawal equals its withdrawal and every later row's cumulative
withdrawal equals the previous row's cumulative withdrawal plus that row's
withdrawal; the analogous recurrence holds for the deposited column. -/
theorem cumulative_running_sum (rows : List RawRow) :
    (∀ t : Transaction, (preprocess_data rows).get? 0 = some t →
      t.cumulativeWithdrawal = t.withdrawal ∧
      t.cumulativeDeposited = t.deposited) ∧
    (∀ (i : ℕ) (t' t : Transaction),
      (preprocess_data rows).get? i = some t' →
      (preprocess_data rows).get? (i + 1) = some t →
      t.cumulativeWithdrawal = t'.cumulativeWithdrawal + t.withdrawal ∧
      t.cumulativeDeposited = t'.cumulativeDeposited + t.deposited) := by
  constructor
  · intro t ht
    have h := buildLedger_head rows 0 0 t ht
    simpa using h
  · intro i t' t h' h
    exact buildLedger_step rows 0 0 i t' t h' h

/-- C8: the two cumulative columns are monotonically non-decreasing along
the row order, for amounts satisfying the data model's non-negativity. -/
theorem cumulative_monotone (rows : List RawRow)
    (hw : ∀ r ∈ rows, 0 ≤ toNumeric r.withdrawal ∧ 0 ≤ toNumeric r.deposited)
    (i : ℕ) (t' t : Transaction)
    (h' : (preprocess_data rows).get? i = some t')
    (h : (preprocess_data rows).get? (i + 1) = some t) :
    t'.cumulativeWithdrawal ≤ t.cumulativeWithdrawal ∧
    t'.cumulativeDeposited ≤ t.cumulativeDeposited := by
  obtain ⟨hcw, hcd⟩ := buildLedger_step rows 0 0 i t' t h' h
  have hmem : t ∈ preprocess_data rows := List.get?_mem h
  obtain ⟨r, hr, hwd, hdd⟩ := buildLedger_mem rows 0 0 t hmem
  obtain ⟨h0w, h0d⟩ := hw r hr
  constructor
  · rw [hcw]
    exact le_add_of_nonneg_right (hwd ▸ h0w)
  · rw [hcd]
    exact le_add_of_nonneg_right (hdd ▸ h0d)

/-- C9: preprocessing preserves the table's shape and source text: same
row count, same order, narration unchanged, the five source fields only
coerced. -/
theorem preprocess_frame (rows : List RawRow) :
    (preprocess_data rows).length = rows.length ∧
    ∀ i : ℕ,
      ((preprocess_data rows).get? i).map
          (fun t => (t.narration, t.date, t.withdrawal, t.deposited, t.balance))
        = (rows.get? i).map
          (fun r => (r.narration, r.date, toNumeric r.withdrawal,
            toNumeric r.deposited, toNumeric r.balance)) :=
  ⟨buildLedger_length rows 0 0, fun i => buildLedger_proj rows 0 0 i⟩

lemma sum_map_ite_not_mem (a : String) (c : ℚ) (f : String → ℚ) :
    ∀ ks : List String, a ∉ ks →
    (ks.map (fun k => if a = k then c + f k else f k)).sum = (ks.map f).sum := by
  intro ks
  induction ks with
  | nil => intro _; rfl
  | cons k ks ih =>
    intro h
    have hak : a ≠ k := fun he => h (he ▸ List.mem_cons_self k ks)
    have h' : a ∉ ks := fun hm => h (List.mem_cons_of_mem k hm)
    simp only [List.map_cons, List.sum_cons, if_neg hak, ih h']

lemma sum_map_ite_mem (a : String) (c : ℚ) (f : String → ℚ) :
    ∀ ks : List String, ks.Nodup → a ∈ ks →
    (ks.map (fun k => if a = k then c + f k else f k)).sum = c + (ks.map f).sum := by
  intro ks
  induction ks with
  | nil => intro _ h; cases h
  | cons k ks ih =>
    intro hnd hmem
    obtain ⟨hk, hnd'⟩ := List.nodup_cons.mp hnd
    by_cases hak : a = k
    · subst hak
      simp only [List.map_cons, List.sum_cons, if_pos rfl,
        sum_map_ite_not_mem a c f ks hk]
      simp only [if_true, eq_self_iff_true]
      ring
    · have hmem' : a ∈ ks := by
        rcases List.mem_cons.mp hmem with h | h
        · exact absurd h hak
        · exact h
      simp only [List.map_cons, List.sum_cons, if_neg hak, ih hnd' hmem']
      ring

lemma groupWithdrawal_partition :
    ∀ (l : List Transaction) (ks : List String), ks.Nodup →
    (∀ t ∈ l, t.upis ∈ ks) →
    (ks.map (fun k => groupWithdrawal l k)).sum = total_withdrawal l := by
  intro l
  induction l with
  | nil =>
    intro ks _ _
    simp [groupWithdrawal, total_withdrawal]
  | cons t l ih =>
    intro ks hnd hcov
    have hmem : t.upis ∈ ks := hcov t (List.mem_cons_self t l)
    have hcov' : ∀ u ∈ l, u.upis ∈ ks := fun u hu => hcov u (List.mem_cons_of_mem t hu)
    have hstep : ∀ k, groupWithdrawal (t :: l) k =
        if t.upis = k then t.withdrawal + groupWithdrawal l k
        else groupWithdrawal l k := by
      intro k
      by_cases h : t.upis = k
      · simp [groupWithdrawal, List.filter_cons, h]
      · simp [groupWithdrawal, List.filter_cons, h]
    have hfun : (fun k => groupWithdrawal (t :: l) k) =
        (fun k => if t.upis = k then t.withdrawal + groupWithdrawal l k
          else groupWithdrawal l k) := funext hstep
    rw [hfun, sum_map_ite_mem t.upis t.withdrawal _ ks hnd hmem, ih ks hnd hcov']
    simp [total_withdrawal]

/-- C5: the per-key withdrawal sums of the UPIs grouping add up to exactly
the statement's total withdrawal: no transaction is dropped or counted
twice. -/
theorem group_sums_equal_total (l : List Transaction) (h : l ≠ []) :
    ((upi_group l).map Prod.snd).sum = total_withdrawal l := by
  have hnd : ((l.map Transaction.upis).dedup).Nodup := List.nodup_dedup _
  have hcov : ∀ t ∈ l, t.upis ∈ (l.map Transaction.upis).dedup := by
    intro t ht
    rw [List.mem_dedup]
    exact List.mem_map_of_mem _ ht
  have hp := groupWithdrawal_partition l _ hnd hcov
  rw [upi_group, List.map_map]
  simpa [Function.comp] using hp

/-- C4: on a ledger in which every withdrawal is zero, the
highest-single-transaction query produces no transaction (the display is
skipped: the guard requires a positive maximum). -/
theorem all_zero_ledger_no_max (l : List Transaction)
    (h : ∀ t ∈ l, t.withdrawal = 0) :
    maxSingleWithdrawal l = none := by
  cases l with
  | nil => rfl
  | cons t ts =>
    rw [maxSingleWithdrawal]
    have ht : t.withdrawal = 0 := h t (List.mem_cons_self t ts)
    have hall : ∀ (xs : List ℚ), (∀ x ∈ xs, x = (0 : ℚ)) → xs.foldl max 0 = 0 := by
      intro xs
      induction xs with
      | nil => intro _; rfl
      | cons x xs ih =>
        intro hx
        have h0 : x = 0 := hx x (List.mem_cons_self x xs)
        have h' : ∀ y ∈ xs, y = (0 : ℚ) := fun y hy => hx y (List.mem_cons_of_mem x hy)
        simp only [List.foldl_cons, h0, max_self]
        exact ih h'
    have hzs : ∀ x ∈ ts.map Transaction.withdrawal, x = (0 : ℚ) := by
      intro x hx
      obtain ⟨u, hu, rfl⟩ := List.mem_map.mp hx
      exact h u (List.mem_cons_of_mem t hu)
    rw [ht, hall _ hzs]
    simp

/-- C3 (amended): when the first and last transaction dates are equal, the
statement span is zero days and the per-day and per-month averages are
omitted (the display is guarded by a positive day count); no division is
attempted. -/
theorem zero_day_average_omitted (l : List Transaction) (d : ℤ)
    (h1 : l.head?.bind Transaction.date = some d)
    (h2 : l.getLast?.bind Transaction.date = some d) :
    statementDays l = some 0 ∧ avgWithdrawalPerDay l = none ∧
    avgWithdrawalPerMonth l = none := by
  have hdays : statementDays l = some 0 := by
    cases hf : l.head? with
    | none => rw [hf] at h1; simp at h1
    | some f =>
      cases hl : l.getLast? with
      | none => rw [hl] at h2; simp at h2
      | some la =>
        rw [hf] at h1
        rw [hl] at h2
        simp only [Option.some_bind] at h1 h2
        simp only [statementDays, hf, hl, h1, h2]
        simp
  refine ⟨hdays, ?_, ?_⟩
  · rw [avgWithdrawalPerDay, hdays]
    simp
  · rw [avgWithdrawalPerMonth, hdays]
    simp

/-- C6 (amended): if every transaction has a parsed date lying in the
inclusive range from the first row's date to the last row's date — in
particular whenever the dates are chronologically non-decreasing and none
is NaT — then filtering by that range keeps every row and the filtered
withdrawal sum equals the statement's total withdrawal. -/
theorem range_filter_total (l : List Transaction) (d1 d2 : ℤ)
    (h1 : l.head?.bind Transaction.date = some d1)
    (h2 : l.getLast?.bind Transaction.date = some d2)
    (hall : ∀ t ∈ l, inRange d1 d2 t = true) :
    total_withdrawal (filterByRange l d1 d2) = total_withdrawal l := by
  rw [filterByRange, List.filter_eq_self.mpr hall]

/-- C7: both narration extractions are total: on every input string they
return a value (possibly the absent marker) and never raise, every indexing
into split fields being guarded or unreachable. -/
theorem narration_extractors_total (s : String) :
    (∃ v, extract_upi_name s = Except.ok v) ∧
    (∃ v, extract_upi_description s = Except.ok v) :=
  ⟨⟨specCounterpartyName s, extract_upi_name_eq_spec s⟩,
    extract_upi_description_ok s⟩

/-- C2 (amended): the pipeline's counterparty name is the five
classification rules, first match wins, evaluated on the narration
truncated at the first at sign (the UPIs projection) — not on the original
narration. -/
theorem upi_name_classifies_truncated (r : RawRow) :
    (coerceRow r).upiName =
      specCounterpartyName ((pySplit r.narration '@').headD "") := by
  have h := extract_upi_name_eq_spec ((pySplit r.narration '@').headD "")
  simp only [coerceRow]
  rw [h]
  rfl

/-- C10: for a narration beginning with UPI- and containing neither RTGS
nor NEFT, the description is the substring after the final dash of the
original narration (the fallback projection) and is never absent. -/
theorem upi_fallback_description (r : RawRow)
    (h1 : pyStartsWith r.narration "UPI-" = true)
    (h2 : pyContains r.narration "RTGS" = false)
    (h3 : pyContains r.narration "NEFT" = false) :
    (coerceRow r).upiDescription =
      some ((pySplit r.narration '-').getLastD "") := by
  have hp := upi_not_pos r.narration h1
  have hc := upi_not_cash r.narration h1
  have hdesc : extract_upi_description r.narration =
      Except.ok (some ((pySplit r.narration '-').getLastD "")) := by
    rw [extract_upi_description, hp, h2, h3, hc]
    simp only [Bool.or_self, if_false]
    rw [pyGetE_neg_one _ (pySplit_ne_nil r.narration '-')]
    rfl
  simp only [coerceRow]
  rw [hdesc]
  rfl

/-- C2 counterexample: for the narration UPI-A@B-C the pipeline's
counterparty name is A, while the second dash-separated field of the
original narration, as the five rules word it, is A@B: the implementation
evaluates the rules on the at-truncated narration, not on the original. -/
theorem upi_name_original_cex :
    ((preprocess_data [rowAtCut]).get? 0).map Transaction.upiName =
      some (some "A") ∧
    specCounterpartyName "UPI-A@B-C" = some "A@B" ∧
    (some "A" : Option String) ≠ some "A@B" := by
  decide

/-- C3 counterexample: on a concrete ledger whose first and last dates
coincide, the summary is produced with the per-day and per-month averages
omitted (the guard days greater than zero skips them); no division failure
occurs and the total withdrawal is still reported. -/
theorem zero_day_average_cex :
    statementDays (preprocess_data rowsSameDay) = some 0 ∧
    avgWithdrawalPerDay (preprocess_data rowsSameDay) = none ∧
    avgWithdrawalPerMonth (preprocess_data rowsSameDay) = none := by
  decide

/-- C6 counterexample: on a concrete non-empty ledger whose dates are out
of chronological order, filtering by the inclusive range from the first
row's date to the last row's date drops both rows, so the filtered
withdrawal sum differs from the total withdrawal. -/
theorem range_filter_total_cex :
    (preprocess_data rowsUnsorted).head?.bind Transaction.date = some 5 ∧
    (preprocess_data rowsUnsorted).getLast?.bind Transaction.date = some 3 ∧
    total_withdrawal (preprocess_data rowsUnsorted) = 2 ∧
    total_withdrawal (filterByRange (preprocess_data rowsUnsorted) 5 3) = 0 ∧
    total_withdrawal (filterByRange (preprocess_data rowsUnsorted) 5 3) ≠
      total_withdrawal (preprocess_data rowsUnsorted) := by
  have he : preprocess_data rowsUnsorted = [txU0, txU1] := rfl
  have hi0 : inRange 5 3 txU0 = false := by decide
  have hi1 : inRange 5 3 txU1 = false := by decide
  have ht : total_withdrawal (preprocess_data rowsUnsorted) = 2 := by
    rw [he]
    norm_num [total_withdrawal, txU0, txU1]
  have hf : total_withdrawal (filterByRange (preprocess_data rowsUnsorted) 5 3) = 0 := by
    rw [he, filterByRange]
    simp [List.filter_cons, hi0, hi1, total_withdrawal]
  refine ⟨by decide, by decide, ht, hf, ?_⟩
  rw [ht, hf]
  norm_num

/-- C1 witness: the recurrence instantiated on the concrete two-row
ledger built from rowsA. -/
theorem cumulative_running_sum_witness :
    txA1.cumulativeWithdrawal = txA0.cumulativeWithdrawal + txA1.withdrawal ∧
    txA1.cumulativeDeposited = txA0.cumulativeDeposited + txA1.deposited :=
  (cumulative_running_sum rowsA).2 0 txA0 txA1 (by rfl) (by rfl)

/-- C8 witness: monotonicity instantiated on the concrete ledger built
from rowsA. -/
theorem cumulative_monotone_witness :
    txA0.cumulativeWithdrawal ≤ txA1.cumulativeWithdrawal ∧
    txA0.cumulativeDeposited ≤ txA1.cumulativeDeposited :=
  cumulative_monotone rowsA (by decide) 0 txA0 txA1 (by rfl) (by rfl)

/-- C3 witness: the amended statement instantiated on a concrete
one-transaction ledger. -/
theorem zero_day_average_omitted_witness :
    statementDays (preprocess_data rowsOne) = some 0 ∧
    avgWithdrawalPerDay (preprocess_data rowsOne) = none ∧
    avgWithdrawalPerMonth (preprocess_data rowsOne) = none :=
  zero_day_average_omitted (preprocess_data rowsOne) 7 (by decide) (by decide)

/-- C4 witness: the all-zero-withdrawal ledger built from rowsZeroW
produces no highest transaction. -/
theorem all_zero_ledger_no_max_witness :
    maxSingleWithdrawal (preprocess_data rowsZeroW) = none :=
  all_zero_ledger_no_max (preprocess_data rowsZeroW) (by decide)

/-- C5 witness: the grouping identity instantiated on the concrete ledger
built from rowsA. -/
theorem group_sums_equal_total_witness :
    ((upi_group (preprocess_data rowsA)).map Prod.snd).sum =
      total_withdrawal (preprocess_data rowsA) :=
  group_sums_equal_total (preprocess_data rowsA) (by decide)

/-- C6 witness: the amended statement instantiated on the
chronologically ordered ledger built from rowsA. -/
theorem range_filter_total_witness :
    total_withdrawal (filterByRange (preprocess_data rowsA) 10 11) =
      total_withdrawal (preprocess_data rowsA) :=
  range_filter_total (preprocess_data rowsA) 10 11 (by decide) (by decide)
    (by decide)

/-- C10 witness: the fallback description instantiated on the concrete
UPI row rowUpiPlain. -/
theorem upi_fallback_description_witness :
    (coerceRow rowUpiPlain).upiDescription =
      some ((pySplit rowUpiPlain.narration '-').getLastD "") :=
  upi_fallback_description rowUpiPlain (by decide) (by decide) (by decide)
